import Mathlib

/-!
Shallow embedding of the retrieval core of the insurance_rag repository
(query expansion, topic boosting, deduplicating retrieval), together with
theorems checking the natural-language specification against it.

Compiled regular expressions are modelled by their match behaviour:
a pattern is a predicate `String → Bool` standing for `p.search(text)`,
and a substitution pattern is a transformation `String → String` standing
for `p.sub("", text)`.  Python `dict`s (ordered, unique keys) are modelled
as association lists in insertion order; Python `float` arithmetic on the
small ratios used by the code is modelled exactly by `ℚ`.
-/

namespace InsuranceRag

/-- A compiled regex, modelled by its match predicate (`p.search(text)` is truthy). -/
abbrev Pat := String → Bool

/-- Python `d.get(k)` / `k in d` on a dict modelled as an association list. -/
def dictGet {α : Type} (d : List (String × α)) (k : String) : Option α :=
  (d.find? (fun kv => kv.1 == k)).map Prod.snd

/-- Python `{**a, **b}`: keys of `a` in order (values overridden by `b`),
then the keys of `b` that are not in `a`, in order. -/
def dictMerge (a b : List (String × String)) : List (String × String) :=
  a.map (fun kv =>
    match dictGet b kv.1 with
    | some v => (kv.1, v)
    | none => kv)
  ++ b.filter (fun kv => (dictGet a kv.1).isNone)

/-- A metadata filter (e.g. `\x7bsource: mcd\x7d`), modelled as an association list. -/
abbrev Filter := List (String × String)

/-! ## `insurance_rag/query/expand.py` -/

/-- The per-source score computed in the loop of `detect_source_relevance`:
`threshold = max(1, len(patterns) // 3)`, `matches` = number of patterns
matching the query, score `min(1.0, matches / threshold)`. -/
def scoreSource (query : String) (patterns : List Pat) : ℚ :=
  let threshold : ℚ := (max 1 (patterns.length / 3) : ℕ)
  let nMatched : ℚ := (patterns.countP (fun p => p query) : ℕ)
  min 1 (nMatched / threshold)

/-- The `scores` dict built by `detect_source_relevance` before the
all-zero fallback test. -/
def sourceScores (query : String) (source_patterns : List (String × List Pat)) :
    List (String × ℚ) :=
  source_patterns.map (fun sp => (sp.1, scoreSource query sp.2))

/-- `detect_source_relevance` from `insurance_rag/query/expand.py`:
score every source, and if all scores are zero return (a copy of)
`default_relevance` instead. -/
def detect_source_relevance (query : String)
    (source_patterns : List (String × List Pat))
    (default_relevance : List (String × ℚ)) : List (String × ℚ) :=
  let scores := sourceScores query source_patterns
  if scores.all (fun v => v.2 == 0) then default_relevance else scores

/-- `_apply_synonyms` from `insurance_rag/query/expand.py`: append the
expansion of every matching synonym pattern, or return the query unchanged
when none match. -/
def apply_synonyms (query : String) (synonym_map : List (Pat × String)) : String :=
  let additions := (synonym_map.filter (fun pe => pe.1 query)).map Prod.snd
  if additions = [] then query
  else query ++ " " ++ String.intercalate " " additions

/-- `expand_cross_source_query` from `insurance_rag/query/expand.py`:
the original query, then one variant per relevant source that has an
expansion, then the synonym-expanded variant when it differs. -/
def expand_cross_source_query (query : String)
    (source_patterns : List (String × List Pat))
    (source_expansions : List (String × String))
    (synonym_map : List (Pat × String))
    (default_relevance : List (String × ℚ)) : List String :=
  let relevance := detect_source_relevance query source_patterns default_relevance
  let sourceVariants := relevance.filterMap (fun sv =>
    if 0 < sv.2 then
      (dictGet source_expansions sv.1).map (fun expansion => query ++ " " ++ expansion)
    else none)
  let synonym_expanded := apply_synonyms query synonym_map
  [query] ++ sourceVariants
    ++ (if synonym_expanded ≠ query then [synonym_expanded] else [])

/-- Modelled from the spec: the hybrid fuser (`insurance_rag/query/hybrid.py`,
whose source is not in the repository snapshot) consumes the cross-source
expansion as `(text, source_filter)` pairs — `(query, None)` first, each
per-source variant paired with the filter `\x7bsource: kind\x7d`, and the
synonym variant (when present) paired with `None`. -/
def expand_cross_source (query : String)
    (source_patterns : List (String × List Pat))
    (source_expansions : List (String × String))
    (synonym_map : List (Pat × String))
    (default_relevance : List (String × ℚ)) : List (String × Option Filter) :=
  let relevance := detect_source_relevance query source_patterns default_relevance
  let sourceVariants := relevance.filterMap (fun sv =>
    if 0 < sv.2 then
      (dictGet source_expansions sv.1).map
        (fun expansion => (query ++ " " ++ expansion, some [("source", sv.1)]))
    else none)
  let synonym_expanded := apply_synonyms query synonym_map
  [(query, (none : Option Filter))] ++ sourceVariants
    ++ (if synonym_expanded ≠ query then [(synonym_expanded, (none : Option Filter))] else [])

/-! ## Data model for `insurance_rag/query/retriever.py`

Only the metadata keys the retriever reads are modelled, with the same
defaults the code supplies to `metadata.get`. -/

/-- Chunk metadata as read by the retriever (`metadata.get("doc_id", "")`,
`metadata.get("chunk_index", 0)`, `doc_type`, `topic_cluster`, `topic_clusters`,
and the `source` key consulted by filters). -/
structure Metadata where
  doc_id : String := ""
  chunk_index : Int := 0
  source : String := ""
  doc_type : String := ""
  topic_cluster : String := ""
  topic_clusters : String := ""
  deriving Repr, DecidableEq

/-- A langchain `Document`: page content plus metadata. -/
structure Document where
  page_content : String := ""
  metadata : Metadata := {}
  deriving Repr, DecidableEq

/-- The result of `collection.get(ids=..., include=["documents", "metadatas"])`:
parallel lists of ids, texts, and (possibly missing) metadata dicts. -/
structure GetResult where
  ids : List String := []
  documents : List String := []
  metadatas : List (Option Metadata) := []

/-- The vector store as seen by the retriever: `similarity_search(query, k,
filter?)` and the raw-collection `get` used for topic-summary injection. -/
structure Store where
  similarity_search : String → Nat → Option Filter → List Document
  raw_get : List String → GetResult

/-- The deduplication key built in `_deduplicate_docs`:
`doc_id + "\x00" + chunk_index` — an injective encoding of the pair
`(doc_id, chunk_index)`, modelled as the pair itself. -/
def dedupKey (d : Document) : String × Int :=
  (d.metadata.doc_id, d.metadata.chunk_index)

/-! ## `insurance_rag/ingest/cluster.py` (topic assignment) -/

/-- A topic definition (`TopicDef` in `insurance_rag/ingest/cluster.py`),
restricted to the fields `assign_topics` reads. -/
structure TopicDef where
  name : String
  patterns : List Pat
  min_pattern_matches : Nat := 1

/-- `assign_topics`: the names of the topic definitions, in declaration
order, for which at least `min_pattern_matches` patterns match the text. -/
def assign_topics (topic_defs : List TopicDef) (text : String) : List String :=
  (topic_defs.filter
    (fun td => td.min_pattern_matches ≤ td.patterns.countP (fun p => p text))).map
    TopicDef.name

/-! ## Query-pattern and domain data consumed by the retriever -/

/-- The dict returned by a domain plugin's `get_query_patterns`. -/
structure QueryPatterns where
  specialized_query_patterns : List Pat := []
  specialized_topic_patterns : List (Pat × String) := []
  strip_noise_pattern : Option (String → String) := none
  strip_filler_pattern : Option (String → String) := none

/-- The domain data the retrieval path reads: query patterns, the
specialized source filter, and the topic definitions used by
`detect_query_topics`. -/
structure DomainData where
  query_patterns : QueryPatterns
  specialized_source_filter : Option Filter := none
  topic_defs : List TopicDef := []

/-! ## `insurance_rag/query/retriever.py` — pure helpers -/

/-- `is_lcd_query`: the query matches some specialized query pattern. -/
def is_lcd_query (qp : QueryPatterns) (query : String) : Bool :=
  qp.specialized_query_patterns.any (fun p => p query)

/-- A character matched by `[()]`. -/
def isParenChar (c : Char) : Bool := c = '(' ∨ c = ')'

/-- A character matched by `\s` on the ASCII inputs handled here:
space, tab, newline, carriage return, vertical tab, form feed. -/
def isSpaceChar (c : Char) : Bool :=
  c = ' ' ∨ c = '\t' ∨ c = '\n' ∨ c = '\r' ∨ c = Char.ofNat 11 ∨ c = Char.ofNat 12

/-- A character of the strip set `" ?.,;:"`. -/
def isStripChar (c : Char) : Bool :=
  c = ' ' ∨ c = '?' ∨ c = '.' ∨ c = ',' ∨ c = ';' ∨ c = ':'

/-- `re.sub(r"[()]+", " ", ·)`, one character at a time: the flag records
being inside a parenthesis run whose single replacement space was already
emitted. -/
def collapseParensAux : Bool → List Char → List Char
  | _, [] => []
  | inRun, c :: rest =>
    if isParenChar c then
      if inRun then collapseParensAux true rest
      else ' ' :: collapseParensAux true rest
    else c :: collapseParensAux false rest

/-- `re.sub(r"[()]+", " ", ·)`: each maximal run of parentheses becomes a
single space. -/
def collapseParens (l : List Char) : List Char :=
  collapseParensAux false l

/-- `re.sub(r"\s{2,}", " ", ·)`, one character at a time: a whitespace
character that starts a run of length at least two becomes the single
replacement space, the rest of the run is skipped, and a lone whitespace
character is kept as it is. -/
def collapseWsAux : Bool → List Char → List Char
  | _, [] => []
  | inRun, c :: rest =>
    if isSpaceChar c then
      if inRun then collapseWsAux true rest
      else
        match rest with
        | [] => [c]
        | c2 :: _ =>
          if isSpaceChar c2 then ' ' :: collapseWsAux true rest
          else c :: collapseWsAux false rest
    else c :: collapseWsAux false rest

/-- `re.sub(r"\s{2,}", " ", ·)`: each maximal run of two or more whitespace
characters becomes a single space; a lone whitespace character is kept. -/
def collapseWs (l : List Char) : List Char :=
  collapseWsAux false l

/-- Python `str.lower()` on the ASCII queries handled here. -/
def pyLower (s : String) : String :=
  String.mk (s.data.map Char.toLower)

/-- Python `str.strip(chars)`: drop the given characters from both ends. -/
def pyStrip (p : Char → Bool) (l : List Char) : List Char :=
  ((l.dropWhile p).reverse.dropWhile p).reverse

/-- `_strip_to_concept` from `insurance_rag/query/retriever.py`: apply the
noise pattern, the filler pattern, collapse parentheses and whitespace
runs, then strip `" ?.,;:"` from both ends. -/
def strip_to_concept (query : String)
    (strip_noise strip_filler : Option (String → String)) : String :=
  let cleaned := (strip_noise.getD id) query
  let cleaned := (strip_filler.getD id) cleaned
  let cleaned := String.mk (collapseWs (collapseParens cleaned.data))
  String.mk (pyStrip isStripChar cleaned.data)

/-- `expand_lcd_query` from `insurance_rag/query/retriever.py`: the original
query; the query plus matching topic expansions (or the generic LCD
fallback); and, when non-empty and different case-insensitively, the
stripped concept query. -/
def expand_lcd_query (qp : QueryPatterns) (query : String) : List String :=
  let topic_expansions :=
    (qp.specialized_topic_patterns.filter (fun pe => pe.1 query)).map Prod.snd
  let second :=
    if topic_expansions ≠ [] then
      query ++ " " ++ String.intercalate " " topic_expansions
    else
      query ++ " Local Coverage Determination LCD policy coverage criteria"
  let concept := strip_to_concept query qp.strip_noise_pattern qp.strip_filler_pattern
  [query, second]
    ++ (if concept ≠ "" ∧ pyLower concept ≠ pyLower query then [concept] else [])

/-- The per-document test of the loop in `boost_summaries`: a summary doc
(`doc_type` in `topic_summary` / `document_summary`) whose `topic_cluster`,
or else whose comma-split `topic_clusters`, intersects the query topics. -/
def is_relevant_summary (query_topics : List String) (d : Document) : Bool :=
  if d.metadata.doc_type = "topic_summary" ∨ d.metadata.doc_type = "document_summary" then
    if d.metadata.topic_cluster ≠ "" ∧ d.metadata.topic_cluster ∈ query_topics then
      true
    else if d.metadata.topic_clusters ≠ "" then
      (d.metadata.topic_clusters.splitOn ",").any (fun t => decide (t ∈ query_topics))
    else false
  else false

/-- `boost_summaries` from `insurance_rag/query/retriever.py`: move relevant
summary documents to the front (keeping order inside each group), truncate
to `max_k`; pass through unchanged (truncated) when there are no query
topics or no docs. -/
def boost_summaries (docs : List Document) (query_topics : List String)
    (max_k : Nat) : List Document :=
  if query_topics = [] ∨ docs = [] then docs.take max_k
  else
    (docs.filter (is_relevant_summary query_topics)
      ++ docs.filter (fun d => ! is_relevant_summary query_topics d)).take max_k

/-- The `injected` list built inside `inject_topic_summaries`: look up
`topic_<t>` ids in the raw collection and rebuild Documents from the
returned parallel lists (missing text becomes `""`, missing metadata
becomes the empty dict). -/
def topicSummaryDocs (store : Store) (query_topics : List String) : List Document :=
  let ids := query_topics.map (fun t => "topic_" ++ t)
  let result := store.raw_get ids
  (List.range result.ids.length).map (fun i =>
    { page_content := result.documents.getD i ""
      metadata := ((result.metadatas.getD i none).getD {}) })

/-- The `new_injected` list of `inject_topic_summaries`: the looked-up
topic summaries whose `doc_id` is not among the docs' `doc_id`s. -/
def newInjectedDocs (store : Store) (docs : List Document)
    (query_topics : List String) : List Document :=
  (topicSummaryDocs store query_topics).filter
    (fun d => decide (d.metadata.doc_id ∉ docs.map (fun d2 => d2.metadata.doc_id)))

/-- `inject_topic_summaries` from `insurance_rag/query/retriever.py`:
prepend looked-up topic summaries whose `doc_id` is not already present,
truncate to `max_k`; identity (truncated) when there are no query topics. -/
def inject_topic_summaries (store : Store) (docs : List Document)
    (query_topics : List String) (max_k : Nat) : List Document :=
  if query_topics = [] then docs.take max_k
  else (newInjectedDocs store docs query_topics ++ docs).take max_k

/-- `apply_topic_summary_boost` from `insurance_rag/query/retriever.py`:
detect topics on the query; when any, inject then boost; truncate. -/
def apply_topic_summary_boost (topic_defs : List TopicDef) (store : Store)
    (docs : List Document) (query : String) (max_k : Nat) : List Document :=
  (if assign_topics topic_defs query ≠ [] then
      boost_summaries
        (inject_topic_summaries store docs (assign_topics topic_defs query) max_k)
        (assign_topics topic_defs query) max_k
    else docs).take max_k

/-- The iteration order of the nested loops in `_deduplicate_docs`:
position 0 of every list in list order, then position 1, and so on, up to
the longest list's length. -/
def roundRobin (doc_lists : List (List Document)) : List Document :=
  let max_len := (doc_lists.map List.length).foldr max 0
  (List.range max_len).flatMap (fun pos => doc_lists.filterMap (fun dl => dl.get? pos))

/-- The body of `_deduplicate_docs` over its (flattened) iteration
sequence: skip documents whose key was seen, append the rest, and return
as soon as `max_k` documents have been appended. -/
def collectDedup (max_k : Nat) :
    List Document → List (String × Int) → List Document → List Document
  | [], _, acc => acc.reverse
  | d :: rest, seen, acc =>
    if dedupKey d ∈ seen then collectDedup max_k rest seen acc
    else if max_k ≤ acc.length + 1 then (d :: acc).reverse
    else collectDedup max_k rest (dedupKey d :: seen) (d :: acc)

/-- `_deduplicate_docs` from `insurance_rag/query/retriever.py`. -/
def deduplicate_docs (doc_lists : List (List Document)) (max_k : Nat) :
    List Document :=
  collectDedup max_k (roundRobin doc_lists) [] []

/-! ## `LCDAwareRetriever` retrieval paths -/

/-- The early-return test at the top of `_lcd_retrieve`: the specialized
source filter is set and non-empty, names a (truthy) source, and the
caller's filter names a different source. -/
def lcdSkip (spec_filter metadata_filter : Option Filter) : Bool :=
  match spec_filter, metadata_filter with
  | some sf, some mf =>
    if sf ≠ [] then
      match dictGet sf "source" with
      | some req =>
        req ≠ "" &&
          (match dictGet mf "source" with
           | some s => decide (s ≠ req)
           | none => false)
      | none => false
    else false
  | _, _ => false

/-- `source_filter` as computed in `_lcd_retrieve`: `spec_filter or \x7b\x7d`,
merged under the caller's filter when one is given. -/
def lcdSourceFilter (spec_filter metadata_filter : Option Filter) : Filter :=
  let sf0 := match spec_filter with
    | some sf => sf
    | none => []
  match metadata_filter with
  | some mf => dictMerge mf sf0
  | none => sf0

/-- The result lists `[spec_docs] + variant_results + [base_docs]` fed to
`_deduplicate_docs` by `_lcd_retrieve`. -/
def lcdDocLists (dd : DomainData) (store : Store) (lcd_k : Nat)
    (metadata_filter : Option Filter) (query : String) : List (List Document) :=
  let source_filter := lcdSourceFilter dd.specialized_source_filter metadata_filter
  let per_variant := max 4 (lcd_k / 3)
  let specAndVariants :=
    if source_filter ≠ [] then
      let spec_docs := store.similarity_search query per_variant (some source_filter)
      let expanded := expand_lcd_query dd.query_patterns query
      spec_docs ::
        (expanded.drop 1).map
          (fun eq => store.similarity_search eq per_variant (some source_filter))
    else [[]]
  let base_docs := store.similarity_search query per_variant metadata_filter
  specAndVariants ++ [base_docs]

/-- `LCDAwareRetriever._lcd_retrieve`: either the early plain search (when
the caller pins a different source than the specialized filter), or the
multi-variant searches merged by `_deduplicate_docs` and passed through
`apply_topic_summary_boost`. -/
def lcd_retrieve (dd : DomainData) (store : Store) (k lcd_k : Nat)
    (metadata_filter : Option Filter) (query : String) : List Document :=
  if lcdSkip dd.specialized_source_filter metadata_filter then
    store.similarity_search query k metadata_filter
  else
    apply_topic_summary_boost dd.topic_defs store
      (deduplicate_docs (lcdDocLists dd store lcd_k metadata_filter query) lcd_k)
      query lcd_k

/-- The non-specialized branch of `LCDAwareRetriever._get_relevant_documents`:
a plain filtered similarity search followed by `apply_topic_summary_boost`. -/
def generic_retrieve (dd : DomainData) (store : Store) (k : Nat)
    (metadata_filter : Option Filter) (query : String) : List Document :=
  apply_topic_summary_boost dd.topic_defs store
    (store.similarity_search query k metadata_filter) query k

/-- `LCDAwareRetriever._get_relevant_documents`: dispatch on `is_lcd_query`. -/
def get_relevant_documents (dd : DomainData) (store : Store) (k lcd_k : Nat)
    (metadata_filter : Option Filter) (query : String) : List Document :=
  if is_lcd_query dd.query_patterns query then
    lcd_retrieve dd store k lcd_k metadata_filter query
  else generic_retrieve dd store k metadata_filter query

/-! ## Domain registry (`insurance_rag/domains/__init__.py`) and
`get_retriever` -/

/-- A registered domain, restricted to the fields the retriever entry
points read. -/
structure RegisteredDomain where
  name : String
  collection_name : String
  deriving Repr, DecidableEq

/-- The registry contents after `_discover_domains` has imported the
built-in domain packages, in registration order (`medicare`, then `auto`,
per the import loop). Names and collection names are taken from
`insurance_rag/domains/medicare/__init__.py` and
`insurance_rag/domains/auto/__init__.py`. -/
def registryDomains : List RegisteredDomain :=
  [{ name := "medicare", collection_name := "medicare" },
   { name := "auto", collection_name := "auto_insurance" }]

/-- A single-quote character, for reproducing Python `repr` of a name. -/
def squote : String := String.mk [Char.ofNat 39]

/-- The `KeyError` message raised by `get_domain` for an unknown name:
`Unknown domain <name!r>. Available: <sorted names>.` -/
def unknown_domain_message (name : String) : String :=
  "Unknown domain " ++ squote ++ name ++ squote ++ ". Available: "
    ++ String.intercalate ", " ((registryDomains.map RegisteredDomain.name).mergeSort (· ≤ ·))
    ++ "."

/-- `get_domain` from `insurance_rag/domains/__init__.py`: return the
registered domain, or raise `KeyError` (modelled as `Except.error`) naming
the unknown domain. -/
def get_domain (name : String) : Except String RegisteredDomain :=
  match registryDomains.find? (fun d => d.name == name) with
  | some d => Except.ok d
  | none => Except.error (unknown_domain_message name)

/-- Modelled from the spec: `insurance_rag/config.py` is not in the
repository snapshot; the spec describes `DEFAULT_DOMAIN` as the configured
fallback profile name. The theorems below take the fallback name as a
parameter, and this constant instantiates it with the Medicare profile
used throughout the spec's examples. -/
def DEFAULT_DOMAIN : String := "medicare"

/-- Modelled from the spec: `insurance_rag/config.py` is not in the
repository snapshot; the spec gives `LCD_RETRIEVAL_K` as the
specialized-path floor for `k_final` (about 16). -/
def LCD_RETRIEVAL_K : Nat := 16

/-- `_resolve_domain_name` from `insurance_rag/query/retriever.py`:
`None` and unknown names resolve to the fallback name; registered names
resolve to themselves. -/
def resolve_domain_name (default_domain : String) :
    Option String → String
  | none => default_domain
  | some name =>
    match get_domain name with
    | Except.ok _ => name
    | Except.error _ => default_domain

/-- The `LCDAwareRetriever` record as constructed by `get_retriever`. -/
structure LCDAwareRetriever where
  store : Store
  k : Nat := 8
  lcd_k : Nat := LCD_RETRIEVAL_K
  metadata_filter : Option Filter := none
  domain_name : String

/-- `get_retriever` from `insurance_rag/query/retriever.py`, on the path
taken in this snapshot (`insurance_rag/query/hybrid.py` is absent, so the
hybrid import raises `ImportError` and falls through): resolve the domain
name, build the store from the resolved domain's collection when none was
supplied (`mk_store` stands for `get_or_create_chroma`), and construct the
retriever. -/
def get_retriever (default_domain : String) (mk_store : String → Store)
    (k : Nat) (metadata_filter : Option Filter) (store0 : Option Store)
    (domain_name : Option String) : Except String LCDAwareRetriever :=
  let resolved := resolve_domain_name default_domain domain_name
  match store0 with
  | some s =>
    Except.ok { store := s, k := k, lcd_k := max k LCD_RETRIEVAL_K,
                metadata_filter := metadata_filter, domain_name := resolved }
  | none =>
    match get_domain resolved with
    | Except.ok d =>
      Except.ok { store := mk_store d.collection_name, k := k,
                  lcd_k := max k LCD_RETRIEVAL_K,
                  metadata_filter := metadata_filter, domain_name := resolved }
    | Except.error e => Except.error e

/-! ## Specification-side definitions used to state the claims -/

/-- The punctuation set the spec lists for the final trim of the concept
reduction: `? . , ; :`. -/
def isClaimPunct (c : Char) : Bool :=
  c = '?' ∨ c = '.' ∨ c = ',' ∨ c = ';' ∨ c = ':'

/-- The concept reduction as claim C3 words it: noise strip, filler strip,
parenthesis collapse, whitespace collapse, then trimming only *trailing*
`? . , ; :` characters. -/
def claimConcept (query : String)
    (strip_noise strip_filler : Option (String → String)) : String :=
  let cleaned := (strip_noise.getD id) query
  let cleaned := (strip_filler.getD id) cleaned
  let cleaned := String.mk (collapseWs (collapseParens cleaned.data))
  String.mk ((cleaned.data.reverse.dropWhile isClaimPunct).reverse)

/-- The variant list claim C3 describes, using its trailing-only trim. -/
def claimLcdVariants (qp : QueryPatterns) (query : String) : List String :=
  let expansions :=
    (qp.specialized_topic_patterns.filter (fun pe => pe.1 query)).map Prod.snd
  let second :=
    if expansions ≠ [] then query ++ " " ++ String.intercalate " " expansions
    else query ++ " Local Coverage Determination LCD policy coverage criteria"
  let concept := claimConcept query qp.strip_noise_pattern qp.strip_filler_pattern
  [query, second]
    ++ (if concept ≠ "" ∧ pyLower concept ≠ pyLower query then [concept] else [])

/-- The concept reduction with the trim the code actually performs:
the characters of `" ?.,;:"` (space included) removed from *both* ends. -/
def amendedConcept (query : String)
    (strip_noise strip_filler : Option (String → String)) : String :=
  let cleaned := (strip_noise.getD id) query
  let cleaned := (strip_filler.getD id) cleaned
  let cleaned := String.mk (collapseWs (collapseParens cleaned.data))
  String.mk (((cleaned.data.dropWhile isStripChar).reverse.dropWhile isStripChar).reverse)

/-- The variant list of claim C3 amended: same structure, but the concept
variant trims `" ?.,;:"` from both ends. -/
def amendedLcdVariants (qp : QueryPatterns) (query : String) : List String :=
  let expansions :=
    (qp.specialized_topic_patterns.filter (fun pe => pe.1 query)).map Prod.snd
  let second :=
    if expansions ≠ [] then query ++ " " ++ String.intercalate " " expansions
    else query ++ " Local Coverage Determination LCD policy coverage criteria"
  let concept := amendedConcept query qp.strip_noise_pattern qp.strip_filler_pattern
  [query, second]
    ++ (if concept ≠ "" ∧ pyLower concept ≠ pyLower query then [concept] else [])

/-- Ordinary (non-truncating, non-interleaving) deduplication of a stream
by key: keep the first document of each key. -/
def dedupByKey : List Document → List (String × Int) → List Document
  | [], _ => []
  | d :: rest, seen =>
    if dedupKey d ∈ seen then dedupByKey rest seen
    else d :: dedupByKey rest (dedupKey d :: seen)

/-- The merge claim C9 describes: the full round-robin stream, deduplicated
by `(doc_id, chunk_index)`. -/
def roundRobinDedup (doc_lists : List (List Document)) : List Document :=
  dedupByKey (roundRobin doc_lists) []

/-! ## Concrete instances used by counterexamples and witnesses -/

/-- An ordinary chunk. -/
def docA : Document := { page_content := "a", metadata := { doc_id := "A" } }

/-- The metadata of a stored topic summary for topic `t`. -/
def summaryMetaT : Metadata :=
  { doc_id := "topic_t", doc_type := "topic_summary", topic_cluster := "t" }

/-- A store whose similarity search always returns `docA` and whose raw
collection holds the `topic_t` summary. -/
def storeTopicT : Store :=
  { similarity_search := fun _ _ _ => [docA],
    raw_get := fun _ =>
      { ids := ["topic_t"], documents := ["summary"],
        metadatas := [some summaryMetaT] } }

/-- A store whose similarity search always returns `docA` and whose raw
collection is empty. -/
def storeConstA : Store :=
  { similarity_search := fun _ _ _ => [docA], raw_get := fun _ => {} }

/-- Domain data pinning source `mcd`, with one always-matching topic. -/
def domainMcdT : DomainData :=
  { query_patterns := {},
    specialized_source_filter := some [("source", "mcd")],
    topic_defs := [{ name := "t", patterns := [fun _ => true] }] }

/-- Domain data pinning source `mcd`, with no topic definitions. -/
def domainMcdPlain : DomainData :=
  { query_patterns := {},
    specialized_source_filter := some [("source", "mcd")],
    topic_defs := [] }

/-- Domain data with no specialized source filter and no topics. -/
def domainPlain : DomainData := { query_patterns := {} }

/-! ## Theorems -/

/-- C7: for every query and profile data, the first element of
`expand_cross_source_query` and of `expand_lcd_query` is the original
query string, unchanged. -/
theorem first_variant_is_original_query (q : String)
    (sp : List (String × List Pat)) (se : List (String × String))
    (sm : List (Pat × String)) (dr : List (String × ℚ)) (qp : QueryPatterns) :
    (expand_cross_source_query q sp se sm dr).head? = some q ∧
    (expand_lcd_query qp q).head? = some q := by
  constructor
  · simp [expand_cross_source_query]
  · simp [expand_lcd_query]

theorem is_relevant_summary_nil (d : Document) :
    is_relevant_summary [] d = false := by
  simp [is_relevant_summary]

/-- C6: `boost_summaries` is a stable partition: for every document list,
topic list and `max_k`, the output is the `max_k`-prefix of the relevant
summaries (in input order) followed by everything else (in input order),
and that reordering is a permutation of the input. -/
theorem boost_summaries_stable_partition (docs : List Document)
    (query_topics : List String) (max_k : Nat) :
    boost_summaries docs query_topics max_k =
      (docs.filter (is_relevant_summary query_topics)
        ++ docs.filter (fun d => ! is_relevant_summary query_topics d)).take max_k ∧
    (docs.filter (is_relevant_summary query_topics)
      ++ docs.filter (fun d => ! is_relevant_summary query_topics d)).Perm docs := by
  refine ⟨?_, List.filter_append_perm _ docs⟩
  unfold boost_summaries
  by_cases h : query_topics = [] ∨ docs = []
  · rw [if_pos h]
    rcases h with h | h
    · subst h
      have h1 : docs.filter (is_relevant_summary []) = [] := by
        refine List.filter_eq_nil_iff.mpr ?_
        intro d _
        simp [is_relevant_summary_nil]
      have h2 : docs.filter (fun d => ! is_relevant_summary [] d) = docs := by
        refine List.filter_eq_self.mpr ?_
        intro d _
        simp [is_relevant_summary_nil]
      rw [h1, h2, List.nil_append]
    · subst h
      simp
  · rw [if_neg h]

/-- C3 counterexample: on the query `?hyperbaric` (no topic patterns, no
strip patterns) the code strips the *leading* `?` as well, emitting the
concept variant `hyperbaric`; under the claim's trailing-only trim the
concept would equal the query case-insensitively and not be emitted. -/
theorem expand_lcd_query_trailing_trim_fails :
    expand_lcd_query {} "?hyperbaric" ≠ claimLcdVariants {} "?hyperbaric" := by
  decide

/-- C3 amended: `expand_lcd_query` returns at most three variants — the
query; the query plus matching topic expansions or the generic fallback;
and the concept reduction (noise strip, filler strip, parenthesis and
whitespace collapse, then trimming spaces and `? . , ; :` from **both**
ends), emitted only when non-empty and case-insensitively different. -/
theorem expand_lcd_query_spec (qp : QueryPatterns) (q : String) :
    expand_lcd_query qp q = amendedLcdVariants qp q ∧
    (expand_lcd_query qp q).length ≤ 3 := by
  constructor
  · rfl
  · unfold expand_lcd_query
    by_cases h : strip_to_concept q qp.strip_noise_pattern qp.strip_filler_pattern ≠ "" ∧
        pyLower (strip_to_concept q qp.strip_noise_pattern qp.strip_filler_pattern) ≠ pyLower q
    · simp [h]
    · simp [h]

/-- C2 counterexample: with a single source whose one pattern matches and
`default_source_relevance = [("a", 1)]`, the computed scores are
`[("a", 1)]` — equal to the defaults although not every score is zero, so
the claimed "equals the defaults iff every score is zero" fails in the
"only if" direction. -/
theorem detect_source_relevance_default_iff_fails :
    ¬ ((detect_source_relevance "q" [("a", [fun _ => true])] [("a", 1)]
          = [("a", (1 : ℚ))]) ↔
        (sourceScores "q" [("a", [fun _ => true])]).all (fun v => v.2 == 0) = true) := by
  have hscore : scoreSource "q" [fun _ => true] = 1 := by
    unfold scoreSource
    norm_num
  intro hiff
  have hdet : detect_source_relevance "q" [("a", [fun _ => true])] [("a", 1)]
      = [("a", (1 : ℚ))] := by
    unfold detect_source_relevance sourceScores
    simp [hscore]
  have hall := hiff.mp hdet
  simp [sourceScores, hscore] at hall

theorem dictGet_cons {α : Type} (k0 : String) (v0 : α) (tl : List (String × α))
    (k : String) :
    dictGet ((k0, v0) :: tl) k = if k0 == k then some v0 else dictGet tl k := by
  unfold dictGet
  rw [List.find?_cons]
  by_cases h : (k0 == k)
  · simp [h]
  · simp [h]

theorem dictGet_sourceScores (q : String) (sp : List (String × List Pat))
    (hkeys : (sp.map Prod.fst).Nodup) (kind : String) (pats : List Pat)
    (h : (kind, pats) ∈ sp) :
    dictGet (sourceScores q sp) kind = some (scoreSource q pats) := by
  induction sp with
  | nil => cases h
  | cons hd tl ih =>
    rcases hd with ⟨k0, p0⟩
    have hcons : sourceScores q ((k0, p0) :: tl)
        = (k0, scoreSource q p0) :: sourceScores q tl := rfl
    rw [hcons, dictGet_cons]
    simp only [List.map_cons, List.nodup_cons] at hkeys
    rcases List.mem_cons.mp h with heq | hmem
    · injection heq with h1 h2
      subst h1
      subst h2
      simp
    · have hkmem : kind ∈ tl.map Prod.fst :=
        List.mem_map.mpr ⟨(kind, pats), hmem, rfl⟩
      have hk0 : ¬ (k0 == kind) = true := by
        intro hbeq
        exact hkeys.1 ((beq_iff_eq.mp hbeq) ▸ hkmem)
      rw [if_neg hk0]
      exact ih hkeys.2 hmem

/-- C2 amended: every source kind in `source_patterns` is scored
`min(1, M / max(1, ⌊patterns/3⌋))`; the returned map is
`default_source_relevance` whenever every per-source score is zero, and is
the score map itself otherwise (so it can still coincide with the defaults
when some nonzero scores happen to equal them — the claimed "iff" holds
only in the "if" direction). -/
theorem detect_source_relevance_spec (q : String)
    (sp : List (String × List Pat)) (dr : List (String × ℚ))
    (hkeys : (sp.map Prod.fst).Nodup) :
    (∀ kind pats, (kind, pats) ∈ sp →
      dictGet (sourceScores q sp) kind =
        some (min 1 ((pats.countP (fun p => p q) : ℚ)
          / ((max 1 (pats.length / 3) : ℕ) : ℚ)))) ∧
    ((∀ v ∈ sourceScores q sp, v.2 = 0) →
      detect_source_relevance q sp dr = dr) ∧
    ((∃ v ∈ sourceScores q sp, v.2 ≠ 0) →
      detect_source_relevance q sp dr = sourceScores q sp) := by
  refine ⟨?_, ?_, ?_⟩
  · intro kind pats hmem
    rw [dictGet_sourceScores q sp hkeys kind pats hmem]
    rfl
  · intro hz
    unfold detect_source_relevance
    rw [if_pos]
    exact List.all_eq_true.mpr (fun v hv => beq_iff_eq.mpr (hz v hv))
  · rintro ⟨v, hv, hnz⟩
    unfold detect_source_relevance
    rw [if_neg]
    intro hall
    exact hnz (beq_iff_eq.mp (List.all_eq_true.mp hall v hv))

/-- Witness for the C2 amended theorem at a concrete profile. -/
theorem detect_source_relevance_spec_witness :
    (([("a", [fun (_ : String) => true])].map
        (Prod.fst (α := String) (β := List Pat))).Nodup) ∧
    ((∀ kind pats, (kind, pats) ∈ ([("a", [fun (_ : String) => true])] : List (String × List Pat)) →
      dictGet (sourceScores "q" [("a", [fun _ => true])]) kind =
        some (min 1 ((pats.countP (fun p => p "q") : ℚ)
          / ((max 1 (pats.length / 3) : ℕ) : ℚ)))) ∧
    ((∀ v ∈ sourceScores "q" [("a", [fun _ => true])], v.2 = 0) →
      detect_source_relevance "q" [("a", [fun _ => true])] [("b", 1)] = [("b", 1)]) ∧
    ((∃ v ∈ sourceScores "q" [("a", [fun _ => true])], v.2 ≠ 0) →
      detect_source_relevance "q" [("a", [fun _ => true])] [("b", 1)]
        = sourceScores "q" [("a", [fun _ => true])])) :=
  ⟨by simp, detect_source_relevance_spec "q" [("a", [fun _ => true])] [("b", 1)] (by simp)⟩

/-- C1: the cross-source expansion, consumed as `(text, source_filter)`
pairs, starts with `(query, None)`, carries the filter
`\x7bsource: kind\x7d` on each per-source variant (one for each kind with
positive detected relevance and an expansion entry), ends with the synonym
variant filtered by `None` when synonyms changed the query — and its texts
are exactly the list computed by `expand_cross_source_query`. -/
theorem expand_cross_source_pairs_spec (q : String)
    (sp : List (String × List Pat)) (se : List (String × String))
    (sm : List (Pat × String)) (dr : List (String × ℚ)) :
    (expand_cross_source q sp se sm dr).map Prod.fst
      = expand_cross_source_query q sp se sm dr ∧
    expand_cross_source q sp se sm dr =
      [(q, (none : Option Filter))]
        ++ ((detect_source_relevance q sp dr).filterMap (fun sv =>
          if 0 < sv.2 then
            (dictGet se sv.1).map
              (fun expansion => (q ++ " " ++ expansion, some [("source", sv.1)]))
          else none))
        ++ (if apply_synonyms q sm ≠ q then
              [(apply_synonyms q sm, (none : Option Filter))]
            else []) := by
  refine ⟨?_, rfl⟩
  unfold expand_cross_source expand_cross_source_query
  simp only [List.map_append]
  have hmid :
      ((detect_source_relevance q sp dr).filterMap (fun sv =>
        if 0 < sv.2 then
          (dictGet se sv.1).map
            (fun expansion => (q ++ " " ++ expansion, some [("source", sv.1)]))
        else none)).map Prod.fst
      = (detect_source_relevance q sp dr).filterMap (fun sv =>
          if 0 < sv.2 then
            (dictGet se sv.1).map (fun expansion => q ++ " " ++ expansion)
          else none) := by
    rw [List.map_filterMap]
    congr 1
    funext sv
    by_cases hpos : 0 < sv.2
    · simp only [hpos, if_true, Option.map_map]
      rfl
    · simp [hpos]
  rw [hmid]
  by_cases hsyn : apply_synonyms q sm ≠ q
  · simp [hsyn]
  · simp [hsyn]

theorem collectDedup_eq_take (max_k : Nat) :
    ∀ (stream : List Document) (seen : List (String × Int)) (acc : List Document),
      acc.length < max_k →
      collectDedup max_k stream seen acc
        = acc.reverse ++ (dedupByKey stream seen).take (max_k - acc.length) := by
  intro stream
  induction stream with
  | nil =>
    intro seen acc _
    simp [collectDedup, dedupByKey]
  | cons d rest ih =>
    intro seen acc hlt
    unfold collectDedup dedupByKey
    by_cases hseen : dedupKey d ∈ seen
    · rw [if_pos hseen, if_pos hseen]
      exact ih seen acc hlt
    · rw [if_neg hseen, if_neg hseen]
      by_cases hfull : max_k ≤ acc.length + 1
      · have hk : max_k = acc.length + 1 := by omega
        rw [if_pos hfull]
        have htake : max_k - acc.length = 1 := by omega
        rw [htake]
        simp
      · rw [if_neg hfull]
        have hlt2 : (d :: acc).length < max_k := by
          simp only [List.length_cons]
          omega
        rw [ih (dedupKey d :: seen) (d :: acc) hlt2]
        have h1 : max_k - acc.length = (max_k - (d :: acc).length) + 1 := by
          simp only [List.length_cons]
          omega
        rw [h1]
        simp [List.take_cons]

/-- C9 counterexample: the bound is checked only after a document is
appended, so with `max_k = 0` the merge still emits one document, while
the claimed "stops as soon as max_k documents have been collected" demands
the empty output. -/
theorem deduplicate_docs_maxk_zero_fails :
    ¬ (deduplicate_docs [[{ page_content := "x", metadata := { doc_id := "d" } }]] 0
        = (roundRobinDedup
            [[{ page_content := "x", metadata := { doc_id := "d" } }]]).take 0) := by
  decide

/-- C9 amended: for `max_k ≥ 1`, `_deduplicate_docs` equals taking the
first `max_k` entries of the positional round-robin interleaving of the
input lists deduplicated by `(doc_id, chunk_index)` — so within each input
list the relative order is preserved; for `max_k = 0` one document is
still emitted when any input list is non-empty (the bound is checked after
appending). -/
theorem deduplicate_docs_round_robin_spec (doc_lists : List (List Document))
    (max_k : Nat) (h : 1 ≤ max_k) :
    deduplicate_docs doc_lists max_k = (roundRobinDedup doc_lists).take max_k := by
  unfold deduplicate_docs roundRobinDedup
  rw [collectDedup_eq_take max_k (roundRobin doc_lists) [] [] (by simpa using h)]
  simp

/-- Witness for the C9 amended theorem at a concrete merge. -/
theorem deduplicate_docs_round_robin_spec_witness :
    (1 ≤ 2) ∧
    deduplicate_docs
        [[{ page_content := "a", metadata := { doc_id := "A" } }],
         [{ page_content := "a", metadata := { doc_id := "A" } },
          { page_content := "b", metadata := { doc_id := "B" } }]] 2
      = (roundRobinDedup
          [[{ page_content := "a", metadata := { doc_id := "A" } }],
           [{ page_content := "a", metadata := { doc_id := "A" } },
            { page_content := "b", metadata := { doc_id := "B" } }]]).take 2 :=
  ⟨by decide,
   deduplicate_docs_round_robin_spec
     [[{ page_content := "a", metadata := { doc_id := "A" } }],
      [{ page_content := "a", metadata := { doc_id := "A" } },
       { page_content := "b", metadata := { doc_id := "B" } }]] 2 (by decide)⟩

/-- C10: when no topic definition matches the query, the whole
topic-summary stage is the identity up to truncation: `apply_topic_summary_boost`
returns `docs.take max_k` without consulting the store (its result does
not depend on the store), and with an empty topic list both
`inject_topic_summaries` and `boost_summaries` return `docs.take max_k`. -/
theorem apply_boost_of_no_topics (td : List TopicDef) (store : Store)
    (docs : List Document) (q : String) (max_k : Nat)
    (h : assign_topics td q = []) :
    apply_topic_summary_boost td store docs q max_k = docs.take max_k := by
  unfold apply_topic_summary_boost
  rw [h]
  simp

theorem no_topics_identity (td : List TopicDef) (q : String)
    (h : assign_topics td q = []) :
    (∀ (store : Store) (docs : List Document) (max_k : Nat),
      apply_topic_summary_boost td store docs q max_k = docs.take max_k) ∧
    (∀ (store store2 : Store) (docs : List Document) (max_k : Nat),
      apply_topic_summary_boost td store docs q max_k
        = apply_topic_summary_boost td store2 docs q max_k) ∧
    (∀ (store : Store) (docs : List Document) (max_k : Nat),
      inject_topic_summaries store docs [] max_k = docs.take max_k) ∧
    (∀ (docs : List Document) (max_k : Nat),
      boost_summaries docs [] max_k = docs.take max_k) := by
  have h1 : ∀ (store : Store) (docs : List Document) (max_k : Nat),
      apply_topic_summary_boost td store docs q max_k = docs.take max_k :=
    fun store docs max_k => apply_boost_of_no_topics td store docs q max_k h
  refine ⟨h1, fun s s2 docs k => by rw [h1 s, h1 s2], ?_, ?_⟩
  · intro store docs max_k
    simp [inject_topic_summaries]
  · intro docs max_k
    simp [boost_summaries]

/-- Witness for C10 at a concrete non-matching topic set. -/
theorem no_topics_identity_witness :
    assign_topics [{ name := "t", patterns := [fun _ => false] }] "q" = [] ∧
    ((∀ (store : Store) (docs : List Document) (max_k : Nat),
      apply_topic_summary_boost [{ name := "t", patterns := [fun _ => false] }]
        store docs "q" max_k = docs.take max_k) ∧
    (∀ (store store2 : Store) (docs : List Document) (max_k : Nat),
      apply_topic_summary_boost [{ name := "t", patterns := [fun _ => false] }]
          store docs "q" max_k
        = apply_topic_summary_boost [{ name := "t", patterns := [fun _ => false] }]
          store2 docs "q" max_k) ∧
    (∀ (store : Store) (docs : List Document) (max_k : Nat),
      inject_topic_summaries store docs [] max_k = docs.take max_k) ∧
    (∀ (docs : List Document) (max_k : Nat),
      boost_summaries docs [] max_k = docs.take max_k)) :=
  ⟨by decide, no_topics_identity [{ name := "t", patterns := [fun _ => false] }] "q" (by decide)⟩

/-- C8: looking up an unregistered domain name raises `KeyError` (modelled
as `Except.error`) naming the domain, while `get_retriever` never lets it
escape: the name resolves to the configured fallback and the retriever is
constructed successfully with the fallback domain. -/
theorem unknown_domain_handling (name default_domain : String)
    (hunk : name ∉ registryDomains.map RegisteredDomain.name)
    (hdef : ∃ d, get_domain default_domain = Except.ok d) :
    get_domain name = Except.error (unknown_domain_message name) ∧
    resolve_domain_name default_domain (some name) = default_domain ∧
    (∀ (mk_store : String → Store) (k : Nat) (mf : Option Filter),
      ∃ r : LCDAwareRetriever,
        get_retriever default_domain mk_store k mf none (some name) = Except.ok r ∧
        r.domain_name = default_domain) := by
  have hfind : registryDomains.find? (fun d => d.name == name) = none := by
    rw [List.find?_eq_none]
    intro d hd hbeq
    exact hunk (List.mem_map.mpr ⟨d, hd, beq_iff_eq.mp hbeq⟩)
  have herr : get_domain name = Except.error (unknown_domain_message name) := by
    unfold get_domain
    rw [hfind]
  have hres : resolve_domain_name default_domain (some name) = default_domain := by
    have hstep : resolve_domain_name default_domain (some name)
        = (match get_domain name with
           | Except.ok _ => name
           | Except.error _ => default_domain) := rfl
    rw [hstep, herr]
  refine ⟨herr, hres, ?_⟩
  intro mk_store k mf
  obtain ⟨d, hd⟩ := hdef
  refine ⟨{ store := mk_store d.collection_name, k := k,
            lcd_k := max k LCD_RETRIEVAL_K, metadata_filter := mf,
            domain_name := default_domain }, ?_, rfl⟩
  have hstep : get_retriever default_domain mk_store k mf none (some name)
      = (match get_domain (resolve_domain_name default_domain (some name)) with
         | Except.ok d2 =>
           Except.ok { store := mk_store d2.collection_name, k := k,
                       lcd_k := max k LCD_RETRIEVAL_K, metadata_filter := mf,
                       domain_name := resolve_domain_name default_domain (some name) }
         | Except.error e => Except.error e) := rfl
  rw [hstep, hres, hd]

/-- Witness for C8 at the concrete unknown name `nonexistent`. -/
theorem unknown_domain_handling_witness :
    ("nonexistent" ∉ registryDomains.map RegisteredDomain.name) ∧
    (∃ d, get_domain DEFAULT_DOMAIN = Except.ok d) ∧
    (get_domain "nonexistent"
        = Except.error (unknown_domain_message "nonexistent") ∧
      resolve_domain_name DEFAULT_DOMAIN (some "nonexistent") = DEFAULT_DOMAIN ∧
      (∀ (mk_store : String → Store) (k : Nat) (mf : Option Filter),
        ∃ r : LCDAwareRetriever,
          get_retriever DEFAULT_DOMAIN mk_store k mf none (some "nonexistent")
            = Except.ok r ∧
          r.domain_name = DEFAULT_DOMAIN)) :=
  ⟨by decide,
   ⟨{ name := "medicare", collection_name := "medicare" }, rfl⟩,
   unknown_domain_handling "nonexistent" DEFAULT_DOMAIN (by decide)
     ⟨{ name := "medicare", collection_name := "medicare" }, rfl⟩⟩

/-- C4 counterexample: when the specialized filter pins `mcd` and the
caller pins `iom`, `_lcd_retrieve` returns the plain filtered similarity
search — but the generic path additionally runs the topic-summary
injection and boost, so with a query that matches a topic the two paths
differ. -/
theorem lcd_skip_not_generic :
    lcd_retrieve domainMcdT storeTopicT 8 16 (some [("source", "iom")]) "q"
      ≠ generic_retrieve domainMcdT storeTopicT 8 (some [("source", "iom")]) "q" := by
  decide

/-- C4 amended: when the specialized source filter pins a source and the
caller's filter pins a different one, `_lcd_retrieve` returns the plain
similarity search under the caller's filter and `k` — it does *not* apply
the topic-summary stage the generic path runs, so the two paths coincide
only when no topic matches the query (and the store returns at most `k`
documents). -/
theorem lcd_skip_plain_search_spec (dd : DomainData) (store : Store)
    (k lcd_k : Nat) (mf sf : Filter) (s s2 : String) (q : String)
    (hsf : dd.specialized_source_filter = some sf)
    (hs : dictGet sf "source" = some s) (hs0 : s ≠ "")
    (hmf : dictGet mf "source" = some s2) (hneq : s2 ≠ s) :
    lcd_retrieve dd store k lcd_k (some mf) q
      = store.similarity_search q k (some mf) ∧
    (assign_topics dd.topic_defs q = [] →
      (store.similarity_search q k (some mf)).length ≤ k →
      lcd_retrieve dd store k lcd_k (some mf) q
        = generic_retrieve dd store k (some mf) q) := by
  have hsfne : sf ≠ [] := by
    intro h0
    rw [h0] at hs
    simp [dictGet] at hs
  have hskip : lcdSkip dd.specialized_source_filter (some mf) = true := by
    have hstep : lcdSkip (some sf) (some mf)
        = (if sf ≠ [] then
            (match dictGet sf "source" with
             | some req =>
               decide (req ≠ "") &&
                 (match dictGet mf "source" with
                  | some s3 => decide (s3 ≠ req)
                  | none => false)
             | none => false)
          else false) := rfl
    rw [hsf, hstep, if_pos hsfne, hs, hmf]
    simp [hs0, hneq]
  have hplain : lcd_retrieve dd store k lcd_k (some mf) q
      = store.similarity_search q k (some mf) := by
    unfold lcd_retrieve
    rw [hskip]
    simp
  refine ⟨hplain, ?_⟩
  intro htop hlen
  rw [hplain]
  unfold generic_retrieve
  rw [apply_boost_of_no_topics dd.topic_defs store _ q k htop]
  exact (List.take_of_length_le hlen).symm

/-- Witness for the C4 amended theorem at a concrete pinned-source clash. -/
theorem lcd_skip_plain_search_spec_witness :
    domainMcdPlain.specialized_source_filter = some [("source", "mcd")] ∧
    dictGet [("source", "mcd")] "source" = some "mcd" ∧
    "mcd" ≠ "" ∧
    dictGet [("source", "iom")] "source" = some "iom" ∧
    "iom" ≠ "mcd" ∧
    (lcd_retrieve domainMcdPlain storeConstA 8 16 (some [("source", "iom")]) "q"
        = storeConstA.similarity_search "q" 8 (some [("source", "iom")]) ∧
      (assign_topics domainMcdPlain.topic_defs "q" = [] →
        (storeConstA.similarity_search "q" 8 (some [("source", "iom")])).length ≤ 8 →
        lcd_retrieve domainMcdPlain storeConstA 8 16 (some [("source", "iom")]) "q"
          = generic_retrieve domainMcdPlain storeConstA 8 (some [("source", "iom")]) "q")) :=
  ⟨rfl, rfl, by decide, rfl, by decide,
   lcd_skip_plain_search_spec domainMcdPlain storeConstA 8 16
     [("source", "iom")] [("source", "mcd")] "mcd" "iom" "q"
     rfl rfl (by decide) rfl (by decide)⟩

theorem mem_collectDedup (max_k : Nat) :
    ∀ (stream : List Document) (seen : List (String × Int)) (acc : List Document)
      (d : Document),
      d ∈ collectDedup max_k stream seen acc → d ∈ stream ∨ d ∈ acc := by
  intro stream
  induction stream with
  | nil =>
    intro seen acc d h
    right
    unfold collectDedup at h
    simpa using h
  | cons d0 rest ih =>
    intro seen acc d h
    unfold collectDedup at h
    by_cases hseen : dedupKey d0 ∈ seen
    · rw [if_pos hseen] at h
      rcases ih seen acc d h with h1 | h1
      · exact Or.inl (List.mem_cons_of_mem _ h1)
      · exact Or.inr h1
    · rw [if_neg hseen] at h
      by_cases hfull : max_k ≤ acc.length + 1
      · rw [if_pos hfull] at h
        rw [List.mem_reverse, List.mem_cons] at h
        rcases h with rfl | h1
        · exact Or.inl (List.mem_cons_self _ _)
        · exact Or.inr h1
      · rw [if_neg hfull] at h
        rcases ih _ _ d h with h1 | h1
        · exact Or.inl (List.mem_cons_of_mem _ h1)
        · rcases List.mem_cons.mp h1 with rfl | h2
          · exact Or.inl (List.mem_cons_self _ _)
          · exact Or.inr h2

theorem nodup_collectDedup (max_k : Nat) :
    ∀ (stream : List Document) (seen : List (String × Int)) (acc : List Document),
      (acc.map dedupKey).Nodup → (∀ a ∈ acc, dedupKey a ∈ seen) →
      ((collectDedup max_k stream seen acc).map dedupKey).Nodup := by
  intro stream
  induction stream with
  | nil =>
    intro seen acc h1 _h2
    unfold collectDedup
    rw [List.map_reverse]
    exact List.nodup_reverse.mpr h1
  | cons d0 rest ih =>
    intro seen acc h1 h2
    unfold collectDedup
    by_cases hseen : dedupKey d0 ∈ seen
    · rw [if_pos hseen]
      exact ih seen acc h1 h2
    · rw [if_neg hseen]
      have hnotacc : dedupKey d0 ∉ acc.map dedupKey := by
        intro hm
        rcases List.mem_map.mp hm with ⟨a, ha, hk⟩
        exact hseen (hk ▸ h2 a ha)
      by_cases hfull : max_k ≤ acc.length + 1
      · rw [if_pos hfull, List.map_reverse]
        refine List.nodup_reverse.mpr ?_
        rw [List.map_cons]
        exact List.nodup_cons.mpr ⟨hnotacc, h1⟩
      · rw [if_neg hfull]
        refine ih _ _ ?_ ?_
        · rw [List.map_cons]
          exact List.nodup_cons.mpr ⟨hnotacc, h1⟩
        · intro a ha
          rcases List.mem_cons.mp ha with rfl | ha2
          · exact List.mem_cons_self _ _
          · exact List.mem_cons_of_mem _ (h2 a ha2)

theorem mem_roundRobin (doc_lists : List (List Document)) (d : Document)
    (h : d ∈ roundRobin doc_lists) : ∃ dl ∈ doc_lists, d ∈ dl := by
  unfold roundRobin at h
  rcases List.mem_flatMap.mp h with ⟨pos, _hpos, hmem⟩
  rcases List.mem_filterMap.mp hmem with ⟨dl, hdl, hget⟩
  exact ⟨dl, hdl, List.get?_mem hget⟩

theorem mem_deduplicate_docs (doc_lists : List (List Document)) (max_k : Nat)
    (d : Document) (h : d ∈ deduplicate_docs doc_lists max_k) :
    ∃ dl ∈ doc_lists, d ∈ dl := by
  unfold deduplicate_docs at h
  rcases mem_collectDedup max_k (roundRobin doc_lists) [] [] d h with h1 | h1
  · exact mem_roundRobin doc_lists d h1
  · cases h1

theorem nodup_deduplicate_docs (doc_lists : List (List Document)) (max_k : Nat) :
    ((deduplicate_docs doc_lists max_k).map dedupKey).Nodup := by
  unfold deduplicate_docs
  exact nodup_collectDedup max_k (roundRobin doc_lists) [] []
    (by simp) (by intro a ha; cases ha)

theorem mem_inject_topic_summaries (store : Store) (docs : List Document)
    (query_topics : List String) (max_k : Nat) (d : Document)
    (h : d ∈ inject_topic_summaries store docs query_topics max_k) :
    d ∈ topicSummaryDocs store query_topics ∨ d ∈ docs := by
  unfold inject_topic_summaries at h
  by_cases ht : query_topics = []
  · rw [if_pos ht] at h
    exact Or.inr ((List.take_sublist _ _).subset h)
  · rw [if_neg ht] at h
    have h2 := (List.take_sublist _ _).subset h
    rcases List.mem_append.mp h2 with h3 | h3
    · exact Or.inl ((List.filter_sublist _).subset h3)
    · exact Or.inr h3

theorem nodup_inject_topic_summaries (store : Store) (docs : List Document)
    (query_topics : List String) (max_k : Nat)
    (hdocs : (docs.map dedupKey).Nodup)
    (hinj : (topicSummaryDocs store query_topics).Pairwise
      (fun a b => a.metadata.doc_id ≠ b.metadata.doc_id)) :
    ((inject_topic_summaries store docs query_topics max_k).map dedupKey).Nodup := by
  unfold inject_topic_summaries
  by_cases ht : query_topics = []
  · rw [if_pos ht]
    exact List.Nodup.sublist ((List.take_sublist _ _).map _) hdocs
  · rw [if_neg ht]
    apply List.Nodup.sublist ((List.take_sublist _ _).map _)
    rw [List.map_append, List.nodup_append]
    refine ⟨?_, hdocs, ?_⟩
    · have hpair : (newInjectedDocs store docs query_topics).Pairwise
          (fun a b => a.metadata.doc_id ≠ b.metadata.doc_id) :=
        List.Pairwise.sublist (List.filter_sublist _) hinj
      exact List.pairwise_map.mpr
        (hpair.imp (fun hne hkeq => hne (congrArg Prod.fst hkeq)))
    · intro key hk1 hk2
      rcases List.mem_map.mp hk1 with ⟨a, ha, rfl⟩
      rcases List.mem_map.mp hk2 with ⟨b, hb, hkeq⟩
      have ha2 : a ∈ (topicSummaryDocs store query_topics).filter
          (fun d => decide (d.metadata.doc_id ∉ docs.map (fun d2 => d2.metadata.doc_id))) := ha
      have hfil : a.metadata.doc_id ∉ docs.map (fun d2 => d2.metadata.doc_id) :=
        of_decide_eq_true ((List.mem_filter.mp ha2).2)
      have hid : b.metadata.doc_id = a.metadata.doc_id := congrArg Prod.fst hkeq
      exact hfil (List.mem_map.mpr ⟨b, hb, hid⟩)

theorem mem_boost_summaries (docs : List Document) (query_topics : List String)
    (max_k : Nat) (d : Document) (h : d ∈ boost_summaries docs query_topics max_k) :
    d ∈ docs := by
  unfold boost_summaries at h
  by_cases hc : query_topics = [] ∨ docs = []
  · rw [if_pos hc] at h
    exact (List.take_sublist _ _).subset h
  · rw [if_neg hc] at h
    have h2 := (List.take_sublist _ _).subset h
    rcases List.mem_append.mp h2 with h3 | h3
    · exact (List.filter_sublist _).subset h3
    · exact (List.filter_sublist _).subset h3

theorem nodup_boost_summaries (docs : List Document) (query_topics : List String)
    (max_k : Nat) (hdocs : (docs.map dedupKey).Nodup) :
    ((boost_summaries docs query_topics max_k).map dedupKey).Nodup := by
  unfold boost_summaries
  by_cases hc : query_topics = [] ∨ docs = []
  · rw [if_pos hc]
    exact List.Nodup.sublist ((List.take_sublist _ _).map _) hdocs
  · rw [if_neg hc]
    apply List.Nodup.sublist ((List.take_sublist _ _).map _)
    exact ((List.filter_append_perm _ docs).map dedupKey).nodup_iff.mpr hdocs

theorem mem_apply_topic_summary_boost (td : List TopicDef) (store : Store)
    (docs : List Document) (q : String) (max_k : Nat) (d : Document)
    (h : d ∈ apply_topic_summary_boost td store docs q max_k) :
    d ∈ docs ∨ d ∈ topicSummaryDocs store (assign_topics td q) := by
  unfold apply_topic_summary_boost at h
  have h2 := (List.take_sublist _ _).subset h
  by_cases ht : assign_topics td q ≠ []
  · rw [if_pos ht] at h2
    have h3 := mem_boost_summaries _ _ _ _ h2
    rcases mem_inject_topic_summaries _ _ _ _ _ h3 with h4 | h4
    · exact Or.inr h4
    · exact Or.inl h4
  · rw [if_neg ht] at h2
    exact Or.inl h2

theorem nodup_apply_topic_summary_boost (td : List TopicDef) (store : Store)
    (docs : List Document) (q : String) (max_k : Nat)
    (hdocs : (docs.map dedupKey).Nodup)
    (hinj : (topicSummaryDocs store (assign_topics td q)).Pairwise
      (fun a b => a.metadata.doc_id ≠ b.metadata.doc_id)) :
    ((apply_topic_summary_boost td store docs q max_k).map dedupKey).Nodup := by
  unfold apply_topic_summary_boost
  apply List.Nodup.sublist ((List.take_sublist _ _).map _)
  by_cases ht : assign_topics td q ≠ []
  · rw [if_pos ht]
    exact nodup_boost_summaries _ _ _
      (nodup_inject_topic_summaries _ _ _ _ hdocs hinj)
  · rw [if_neg ht]
    exact hdocs

/-- C5: on the specialized (non-skipped) path, every returned chunk came
from one of the variant similarity-search result lists (the filtered
variant searches or the unfiltered baseline) or was injected as a looked-up
topic summary; and no two returned chunks share the deduplication key
`(doc_id, chunk_index)` (given that the stored topic summaries carry
pairwise-distinct `doc_id`s, per the data model). -/
theorem lcd_retrieve_provenance_and_dedup (dd : DomainData) (store : Store)
    (k lcd_k : Nat) (mf : Option Filter) (q : String)
    (hskip : lcdSkip dd.specialized_source_filter mf = false)
    (hinj : (topicSummaryDocs store (assign_topics dd.topic_defs q)).Pairwise
      (fun a b => a.metadata.doc_id ≠ b.metadata.doc_id)) :
    (∀ d ∈ lcd_retrieve dd store k lcd_k mf q,
      (∃ dl ∈ lcdDocLists dd store lcd_k mf q, d ∈ dl) ∨
        d ∈ topicSummaryDocs store (assign_topics dd.topic_defs q)) ∧
    ((lcd_retrieve dd store k lcd_k mf q).map dedupKey).Nodup := by
  have hlcd : lcd_retrieve dd store k lcd_k mf q
      = apply_topic_summary_boost dd.topic_defs store
          (deduplicate_docs (lcdDocLists dd store lcd_k mf q) lcd_k) q lcd_k := by
    unfold lcd_retrieve
    rw [hskip]
    simp
  constructor
  · intro d hd
    rw [hlcd] at hd
    rcases mem_apply_topic_summary_boost _ _ _ _ _ _ hd with h1 | h1
    · exact Or.inl (mem_deduplicate_docs _ _ _ h1)
    · exact Or.inr h1
  · rw [hlcd]
    exact nodup_apply_topic_summary_boost _ _ _ _ _
      (nodup_deduplicate_docs _ _) hinj

/-- Witness for C5 at a concrete store and domain. -/
theorem lcd_retrieve_provenance_and_dedup_witness :
    lcdSkip domainPlain.specialized_source_filter none = false ∧
    (topicSummaryDocs storeConstA (assign_topics domainPlain.topic_defs "q")).Pairwise
      (fun a b => a.metadata.doc_id ≠ b.metadata.doc_id) ∧
    ((∀ d ∈ lcd_retrieve domainPlain storeConstA 8 16 none "q",
      (∃ dl ∈ lcdDocLists domainPlain storeConstA 16 none "q", d ∈ dl) ∨
        d ∈ topicSummaryDocs storeConstA (assign_topics domainPlain.topic_defs "q")) ∧
    ((lcd_retrieve domainPlain storeConstA 8 16 none "q").map dedupKey).Nodup) :=
  ⟨by decide, by decide,
   lcd_retrieve_provenance_and_dedup domainPlain storeConstA 8 16 none "q"
     (by decide) (by decide)⟩

end InsuranceRag
